import Mathlib

/-!
Verification of the label-construction logic of the QD-DETR dataset module
(qd_detr/start_end_dataset.py): saliency label builders, span label builder,
moment-length bucketing, init-time split guard, and the batch collator.

Randomness model: the process-wide pseudo-random generator is threaded in as a
function argument.  A call to the Python `random.sample(pool, k)` is modelled by
`pySample`: it fails (ValueError) exactly when `k` exceeds the pool size, and
otherwise returns `sample pool k`, where `sample` is an arbitrary function
assumed (hypothesis `SampleSpec`) to return `k` distinct members of the pool --
exactly what `random.sample` guarantees for any seed.  Machine floats carrying
annotator scores are modelled as exact integers (the claims at stake concern
lengths, index ranges and zero/one patterns only); seconds and clip counts are
naturals, with Python `int(x / y)` on non-negative values embedded as natural
division.  Fallible code returns `Option`: `none` is a raised exception.
-/

namespace QDDETR

/-- A deterministic instance of the sampling oracle: take the first k pool
elements.  This is one possible outcome of `random.sample`. -/
def takeSample (pool : List ℕ) (k : ℕ) : List ℕ := pool.take k

/-- What `random.sample(pool, k)` guarantees whenever it does not raise
(`k` at most the pool size): `k` results, all members of the pool, distinct
whenever the pool itself has no duplicates. -/
def SampleSpec (sample : List ℕ → ℕ → List ℕ) : Prop :=
  ∀ pool k, k ≤ pool.length →
    (sample pool k).length = k ∧ (∀ x ∈ sample pool k, x ∈ pool) ∧
      (pool.Nodup → (sample pool k).Nodup)

/-- `random.sample(pool, k)`: raises ValueError (none) iff k exceeds the pool
size, source line 199 among others. -/
def pySample (sample : List ℕ → ℕ → List ℕ) (pool : List ℕ) (k : ℕ) :
    Option (List ℕ) :=
  if k ≤ pool.length then some (sample pool k) else none

/-! ## get_saliency_labels_sub_as_query (source lines 187-205) -/

/-- `gt_st = int(gt_window[0] / self.clip_len)`, line 188. -/
def gtSt (clip_len gt0 : ℕ) : ℕ := gt0 / clip_len

/-- `gt_ed = max(0, min(int(gt_window[1] / self.clip_len), ctx_l) - 1)`,
line 189 (truncated natural subtraction is exactly the max-with-0). -/
def gtEd (clip_len gt1 ctx_l : ℕ) : ℕ := min (gt1 / clip_len) ctx_l - 1

/-- Lines 190-191: `if gt_st > gt_ed: gt_st = gt_ed`. -/
def gtStClamped (clip_len gt0 gt1 ctx_l : ℕ) : ℕ :=
  if gtEd clip_len gt1 ctx_l < gtSt clip_len gt0 then gtEd clip_len gt1 ctx_l
  else gtSt clip_len gt0

/-- The positive pool `range(gt_st, gt_ed+1)` of line 194. -/
def posPoolSubAsQuery (clip_len gt0 gt1 ctx_l : ℕ) : List ℕ :=
  List.range' (gtStClamped clip_len gt0 gt1 ctx_l)
    (gtEd clip_len gt1 ctx_l + 1 - gtStClamped clip_len gt0 gt1 ctx_l)

/-- The negative pool `list(range(0, gt_st)) + list(range(gt_ed+1, ctx_l))`
of line 198. -/
def negPoolSubAsQuery (clip_len gt0 gt1 ctx_l : ℕ) : List ℕ :=
  List.range' 0 (gtStClamped clip_len gt0 gt1 ctx_l) ++
    List.range' (gtEd clip_len gt1 ctx_l + 1)
      (ctx_l - (gtEd clip_len gt1 ctx_l + 1))

/-- Lines 202-203: `score_array = np.zeros(ctx_l); score_array[gt_st:gt_ed+1] = 1`
(the slice assignment silently clips to the array bounds). -/
def subAsQueryScore (clip_len gt0 gt1 ctx_l : ℕ) : List ℤ :=
  (List.range ctx_l).map fun j =>
    if gtStClamped clip_len gt0 gt1 ctx_l ≤ j ∧ j ≤ gtEd clip_len gt1 ctx_l
    then 1 else 0

/-- `get_saliency_labels_sub_as_query(gt_window, ctx_l, max_n)`, lines 187-205.
Returns (pos_clip_indices, neg_clip_indices, score_array); `none` models an
uncaught exception from `random.sample`. -/
def get_saliency_labels_sub_as_query (sample : List ℕ → ℕ → List ℕ)
    (clip_len gt0 gt1 ctx_l max_n : ℕ) : Option (List ℕ × List ℕ × List ℤ) :=
  (if gtStClamped clip_len gt0 gt1 ctx_l ≠ gtEd clip_len gt1 ctx_l then
      pySample sample (posPoolSubAsQuery clip_len gt0 gt1 ctx_l) max_n
    else
      some [gtStClamped clip_len gt0 gt1 ctx_l,
            gtStClamped clip_len gt0 gt1 ctx_l]).bind fun pos =>
  (pySample sample (negPoolSubAsQuery clip_len gt0 gt1 ctx_l) max_n).bind
    fun neg =>
  some (pos, neg, subAsQueryScore clip_len gt0 gt1 ctx_l)

/-! ## get_saliency_labels_all (source lines 243-287) -/

/-- `agg_scores = np.sum(scores, 1)`, line 255. -/
def aggScores (scores : List (List ℤ)) : List ℤ := scores.map List.sum

/-- One insertion step of an ascending insertion sort of index lists keyed by
the values `v` (models `np.argsort` increasing, line 256; the claims do not
depend on how ties are broken). -/
def insertIdx (v : List ℤ) (i : ℕ) : List ℕ → List ℕ
  | [] => [i]
  | j :: rest =>
      if v.getD i 0 < v.getD j 0 then i :: j :: rest else j :: insertIdx v i rest

/-- `sort_indices = np.argsort(agg_scores)` (increasing), line 256. -/
def argsort (v : List ℤ) : List ℕ := (List.range v.length).foldr (insertIdx v) []

/-- The Python slice `lst[-n:]`: the last `n` elements, except that `-0`
means the whole list. -/
def lastSlice (l : List ℕ) (n : ℕ) : List ℕ :=
  if n = 0 then l else l.drop (l.length - n)

/-- `min(i, ctx_l - 1)`, the saturating index clamp of lines 226-227, 272-273,
295-296. -/
def clampIdx (ctx_l i : ℕ) : ℕ := min i (ctx_l - 1)

/-- One iteration of the dense score loop, lines 260-267: when the annotated id
is at least `ctx_l` the array is reallocated one slot longer
(`score_array_new = np.zeros(ctx_l + 1); score_array_new[:ctx_l] = score_array`,
a slice assignment that raises ValueError unless the current array still has
length `ctx_l`), then `score_array[rel_clip_ids[idx]] = agg_scores[idx]`
raises IndexError when the id is out of bounds. -/
def scoreStep (ctx_l : ℕ) (acc : Option (List ℤ)) (p : ℕ × ℤ) : Option (List ℤ) :=
  acc.bind fun arr =>
  (if ctx_l ≤ p.1 then
      if arr.length = ctx_l then some (arr ++ [0]) else none
    else some arr).bind fun arr2 =>
  if p.1 < arr2.length then some (arr2.set p.1 p.2) else none

/-- The dense score array construction of lines 259-267, starting from
`np.zeros(ctx_l)`. -/
def buildScoreArray (rel : List ℕ) (agg : List ℤ) (ctx_l : ℕ) : Option (List ℤ) :=
  (rel.zip agg).foldl (scoreStep ctx_l) (some (List.replicate ctx_l 0))

/-- `hard_pos_clip_indices = [min(rel_clip_ids[idx], ctx_l-1) for idx in
sort_indices[-max_n:]]`, line 272. -/
def hardPosAll (rel : List ℕ) (scores : List (List ℤ)) (ctx_l max_n : ℕ) :
    List ℕ :=
  (lastSlice (argsort (aggScores scores)) max_n).map fun idx =>
    clampIdx ctx_l (rel.getD idx 0)

/-- `hard_neg_clip_indices = [min(rel_clip_ids[idx], ctx_l-1) for idx in
sort_indices[:max_n]]`, line 273. -/
def hardNegAll (rel : List ℕ) (scores : List (List ℤ)) (ctx_l max_n : ℕ) :
    List ℕ :=
  ((argsort (aggScores scores)).take max_n).map fun idx =>
    clampIdx ctx_l (rel.getD idx 0)

/-- `easy_neg_pool = list(set(range(ctx_l)) - set(rel_clip_ids))`, line 277. -/
def easyNegPool (rel : List ℕ) (ctx_l : ℕ) : List ℕ :=
  (List.range ctx_l).filter fun i => !(rel.contains i)

/-- `get_saliency_labels_all(rel_clip_ids, scores, ctx_l, max_n,
add_easy_negative)`, lines 243-287.  Returns
(pos_clip_indices, neg_clip_indices, score_array). -/
def get_saliency_labels_all (sample : List ℕ → ℕ → List ℕ) (rel : List ℕ)
    (scores : List (List ℤ)) (ctx_l max_n : ℕ) (add_easy_negative : Bool) :
    Option (List ℕ × List ℕ × List ℤ) :=
  (buildScoreArray rel (aggScores scores) ctx_l).bind fun score_array =>
  (if add_easy_negative then
      if max_n ≤ (easyNegPool rel ctx_l).length then
        (pySample sample rel max_n).bind fun ep =>
        (pySample sample (easyNegPool rel ctx_l) max_n).bind fun en =>
        some (ep, en)
      else some (hardPosAll rel scores ctx_l max_n,
                 hardNegAll rel scores ctx_l max_n)
    else some (([] : List ℕ), ([] : List ℕ))).bind fun pair =>
  some (hardPosAll rel scores ctx_l max_n ++ pair.1,
        hardNegAll rel scores ctx_l max_n ++ pair.2, score_array)

/-! ## get_saliency_labels_all_tvsum (source lines 289-311) -/

/-- `agg_scores = np.sum(labels - np.ones_like(labels), axis=-1)[:ctx_l]`,
line 291. -/
def tvsumAgg (labels : List (List ℤ)) (ctx_l : ℕ) : List ℤ :=
  (labels.map fun row => (row.map fun x => x - 1).sum).take ctx_l

/-- `get_saliency_labels_all_tvsum(labels, ctx_l, max_n, add_easy_negative)`,
lines 289-311.  With `add_easy_negative=True` and a pool of size
`ctx_l ≥ max_n`, line 302 reads the undefined name `rel_clip_ids` and raises
NameError, modelled as `none`. -/
def get_saliency_labels_all_tvsum (labels : List (List ℤ)) (ctx_l max_n : ℕ)
    (add_easy_negative : Bool) : Option (List ℕ × List ℕ × List ℚ) :=
  (if add_easy_negative then
      if max_n ≤ ctx_l then none
      else some ((lastSlice (argsort (tvsumAgg labels ctx_l)) max_n).map
                   (clampIdx ctx_l),
                 ((argsort (tvsumAgg labels ctx_l)).take max_n).map
                   (clampIdx ctx_l))
    else some (([] : List ℕ), ([] : List ℕ))).bind fun pair =>
  some ((lastSlice (argsort (tvsumAgg labels ctx_l)) max_n).map
          (clampIdx ctx_l) ++ pair.1,
        ((argsort (tvsumAgg labels ctx_l)).take max_n).map
          (clampIdx ctx_l) ++ pair.2,
        (tvsumAgg labels ctx_l).map fun x => (x : ℚ) / 80 * 12)

/-! ## get_span_labels (source lines 313-336)

`random.shuffle(windows)` (line 320) permutes the list object passed in BY THE
CALLER, in place.  The shuffle is modelled by a function argument `shuffle`
ranging over the possible outcomes (any permutation); the in-place effect is
captured by `get_span_labels_windows_after`, the list the caller variable
holds once the call returns. -/

/-- Lines 319-321: the windows actually kept, after the in-place shuffle and
truncation to `max_windows`. -/
def keptWindows (shuffle : List (ℕ × ℕ) → List (ℕ × ℕ)) (max_windows : ℕ)
    (windows : List (ℕ × ℕ)) : List (ℕ × ℕ) :=
  if max_windows < windows.length then (shuffle windows).take max_windows
  else windows

/-- The list object the caller passed in, as it stands after
`get_span_labels` returns: `random.shuffle` has mutated it in place whenever
the length exceeded `max_windows`. -/
def get_span_labels_windows_after (shuffle : List (ℕ × ℕ) → List (ℕ × ℕ))
    (max_windows : ℕ) (windows : List (ℕ × ℕ)) : List (ℕ × ℕ) :=
  if max_windows < windows.length then shuffle windows else windows

/-- Modelled from the spec: `span_xx_to_cxw` (qd_detr/span_utils.py, not under
src/) converts a normalized [start, end] pair to [center, width]. -/
def span_xx_to_cxw (w : ℚ × ℚ) : ℚ × ℚ := ((w.1 + w.2) / 2, w.2 - w.1)

/-- The discrete (`ce`) per-window transform of line 332:
`[int(w[0] / clip_len), min(int(w[1] / clip_len), ctx_l) - 1]`.  The
subtraction is over ℤ: the end index can be -1. -/
def ceSpan (clip_len ctx_l : ℕ) (w : ℕ × ℕ) : ℤ × ℤ :=
  ((w.1 / clip_len : ℕ), (min (w.2 / clip_len) ctx_l : ℕ) - 1)

/-- The continuous (`l1`) per-window transform of lines 328-329. -/
def l1Span (clip_len ctx_l : ℕ) (w : ℕ × ℕ) : ℚ × ℚ :=
  span_xx_to_cxw ((w.1 : ℚ) / (ctx_l * clip_len), (w.2 : ℚ) / (ctx_l * clip_len))

/-- The two shapes a span tensor can take, by regime. -/
inductive SpanOut where
  | l1Spans (spans : List (ℚ × ℚ))
  | ceSpans (spans : List (ℤ × ℤ))
deriving DecidableEq

/-- Number of rows of the span tensor. -/
def spanCount : SpanOut → ℕ
  | .l1Spans s => s.length
  | .ceSpans s => s.length

/-- `get_span_labels(windows, ctx_l)`, lines 313-336: returns the transformed
windows plus the parallel raw-length list; any regime other than l1/ce raises
NotImplementedError (`none`). -/
def get_span_labels (shuffle : List (ℕ × ℕ) → List (ℕ × ℕ))
    (max_windows : ℕ) (span_loss_type : String) (clip_len ctx_l : ℕ)
    (windows : List (ℕ × ℕ)) : Option (SpanOut × List ℤ) :=
  if span_loss_type = "l1" then
    some (.l1Spans ((keptWindows shuffle max_windows windows).map
            (l1Span clip_len ctx_l)),
          (keptWindows shuffle max_windows windows).map fun w =>
            (w.2 : ℤ) - (w.1 : ℤ))
  else if span_loss_type = "ce" then
    some (.ceSpans ((keptWindows shuffle max_windows windows).map
            (ceSpan clip_len ctx_l)),
          (keptWindows shuffle max_windows windows).map fun w =>
            (w.2 : ℤ) - (w.1 : ℤ))
  else none

/-! ## Moment-length bucketing (source lines 174-183) -/

/-- The inner loop of lines 176-180: the position of the first threshold the
length does not exceed, if any (`for m_cls, m_val in enumerate(self.m_vals):
if l <= m_val: ... break`). -/
def bucketOf (m_vals : List ℤ) (l : ℤ) : Option ℕ :=
  match m_vals with
  | [] => none
  | v :: rest => if l ≤ v then some 0 else (bucketOf rest l).map (· + 1)

/-- The `moment_class` list built by lines 174-180: lengths whose first
matching threshold exists contribute exactly one class index, in order;
lengths exceeding every threshold contribute nothing. -/
def momentClasses (m_vals : List ℤ) (lengths : List ℤ) : List ℕ :=
  lengths.filterMap (bucketOf m_vals)

/-! ## Constructor guards (source lines 59-63) -/

/-- `Q_FEAT_TYPES`, line 20. -/
def Q_FEAT_TYPES : List String := ["pooler_output", "last_hidden_state"]

/-- The assertions run by `__init__` (lines 59-63) before `load_data` and hence
before any example can be built: on a path containing "val" or "test" the text
drop ratio must be zero, and the query feature type must be recognized.
Returns false when an assertion fires. -/
def initChecksPass (data_path : List Char) (txt_drop_ratio : ℚ)
    (q_feat_type : String) : Bool :=
  (!(decide (List.IsInfix "val".toList data_path)
        || decide (List.IsInfix "test".toList data_path))
      || decide (txt_drop_ratio = 0))
    && Q_FEAT_TYPES.contains q_feat_type

/-! ## start_end_collate (source lines 669-692) -/

/-- Longest sequence length in the batch. -/
def batchMax (seqs : List (List ℤ)) : ℕ := (seqs.map List.length).foldr max 0

/-- Modelled from the spec: `pad_sequences_1d` (utils/tensor_utils.py, not
under src/) pads each sequence with zeros to the batch max length and returns
the pair (padded rows, validity mask with 1 on real positions and 0 on pads). -/
def pad_sequences_1d (seqs : List (List ℤ)) : List (List ℤ) × List (List ℤ) :=
  (seqs.map fun s => s ++ List.replicate (batchMax seqs - s.length) 0,
   seqs.map fun s =>
     List.replicate s.length 1 ++ List.replicate (batchMax seqs - s.length) 0)

/-- Shape of one collated field. -/
inductive BatchedField where
  | pair (padded mask : List (List ℤ))
  | single (padded : List (List ℤ))
deriving DecidableEq

/-- The default branch of `start_end_collate` (lines 690-691): the field keeps
the full (padded, mask) pair returned by `pad_sequences_1d`. -/
def collate_generic_field (seqs : List (List ℤ)) : BatchedField :=
  .pair (pad_sequences_1d seqs).1 (pad_sequences_1d seqs).2

/-- The `saliency_all_labels` branch (lines 681-685): `pad_data, mask_data`
are computed but only `torch.tensor(pad_data)` is stored; the mask is
discarded. -/
def collate_saliency_all_field (seqs : List (List ℤ)) : BatchedField :=
  .single (pad_sequences_1d seqs).1

/-! ## Helper lemmas -/

theorem takeSample_spec : SampleSpec takeSample := by
  intro pool k hk
  refine ⟨?_, ?_, ?_⟩
  · simpa [takeSample] using hk
  · intro x hx
    exact List.mem_of_mem_take hx
  · intro hnd
    exact hnd.sublist (List.take_sublist k pool)

theorem pySample_eq_some {sample : List ℕ → ℕ → List ℕ} {pool : List ℕ}
    {k : ℕ} {out : List ℕ} (hs : SampleSpec sample)
    (h : pySample sample pool k = some out) :
    out.length = k ∧ (∀ x ∈ out, x ∈ pool) ∧ (pool.Nodup → out.Nodup) := by
  unfold pySample at h
  split at h
  · cases h
    exact hs pool k ‹_›
  · cases h

theorem gtStClamped_le_gtEd (clip_len gt0 gt1 ctx_l : ℕ) :
    gtStClamped clip_len gt0 gt1 ctx_l ≤ gtEd clip_len gt1 ctx_l := by
  unfold gtStClamped
  split <;> omega

theorem gtEd_le (clip_len gt1 ctx_l : ℕ) :
    gtEd clip_len gt1 ctx_l ≤ ctx_l - 1 := by
  unfold gtEd
  omega

theorem mem_posPoolSubAsQuery_lt {clip_len gt0 gt1 ctx_l x : ℕ}
    (hctx : 0 < ctx_l) (hx : x ∈ posPoolSubAsQuery clip_len gt0 gt1 ctx_l) :
    x < ctx_l := by
  have h1 := gtStClamped_le_gtEd clip_len gt0 gt1 ctx_l
  have h2 := gtEd_le clip_len gt1 ctx_l
  have h3 := List.mem_range'_1.mp hx
  omega

theorem mem_negPoolSubAsQuery_lt {clip_len gt0 gt1 ctx_l x : ℕ}
    (hctx : 0 < ctx_l) (hx : x ∈ negPoolSubAsQuery clip_len gt0 gt1 ctx_l) :
    x < ctx_l := by
  have h1 := gtStClamped_le_gtEd clip_len gt0 gt1 ctx_l
  have h2 := gtEd_le clip_len gt1 ctx_l
  rcases List.mem_append.mp hx with h | h <;>
    · have h3 := List.mem_range'_1.mp h
      omega

theorem clampIdx_lt {ctx_l i : ℕ} (hctx : 0 < ctx_l) : clampIdx ctx_l i < ctx_l := by
  unfold clampIdx
  omega

theorem mem_hardPosAll_lt {rel : List ℕ} {scores : List (List ℤ)}
    {ctx_l max_n x : ℕ} (hctx : 0 < ctx_l)
    (hx : x ∈ hardPosAll rel scores ctx_l max_n) : x < ctx_l := by
  obtain ⟨idx, _, rfl⟩ := List.mem_map.mp hx
  exact clampIdx_lt hctx

theorem mem_hardNegAll_lt {rel : List ℕ} {scores : List (List ℤ)}
    {ctx_l max_n x : ℕ} (hctx : 0 < ctx_l)
    (hx : x ∈ hardNegAll rel scores ctx_l max_n) : x < ctx_l := by
  obtain ⟨idx, _, rfl⟩ := List.mem_map.mp hx
  exact clampIdx_lt hctx

theorem mem_easyNegPool_lt {rel : List ℕ} {ctx_l x : ℕ}
    (hx : x ∈ easyNegPool rel ctx_l) : x < ctx_l := by
  have := (List.mem_filter.mp hx).1
  exact List.mem_range.mp this

theorem scoreFold_length {ctx_l : ℕ} {pairs : List (ℕ × ℤ)}
    (hp : ∀ p ∈ pairs, p.1 < ctx_l) :
    ∀ arr : List ℤ, arr.length = ctx_l → ∀ out : List ℤ,
      pairs.foldl (scoreStep ctx_l) (some arr) = some out →
      out.length = ctx_l := by
  induction pairs with
  | nil =>
    intro arr harr out hfold
    simp only [List.foldl_nil, Option.some.injEq] at hfold
    exact hfold ▸ harr
  | cons p t ih =>
    intro arr harr out hfold
    have hp1 : p.1 < ctx_l := hp p (by simp)
    rw [List.foldl_cons] at hfold
    have hstep : scoreStep ctx_l (some arr) p = some (arr.set p.1 p.2) := by
      unfold scoreStep
      rw [Option.some_bind, if_neg (by omega), Option.some_bind,
        if_pos (by omega)]
    rw [hstep] at hfold
    exact ih (fun q hq => hp q (List.mem_cons_of_mem p hq)) _
      (by rw [List.length_set]; exact harr) out hfold

theorem buildScoreArray_length {rel : List ℕ} {agg : List ℤ} {ctx_l : ℕ}
    {out : List ℤ} (hrel : ∀ id ∈ rel, id < ctx_l)
    (h : buildScoreArray rel agg ctx_l = some out) : out.length = ctx_l := by
  unfold buildScoreArray at h
  refine scoreFold_length ?_ _ (List.length_replicate _ _) out h
  rintro ⟨a, b⟩ hab
  exact hrel a (List.of_mem_zip hab).1

theorem le_batchMax {s : List ℤ} {seqs : List (List ℤ)} (hs : s ∈ seqs) :
    s.length ≤ batchMax seqs := by
  induction seqs with
  | nil => cases hs
  | cons a t ih =>
    rcases List.mem_cons.mp hs with rfl | h
    · simp [batchMax]
    · calc s.length ≤ batchMax t := ih h
        _ ≤ batchMax (a :: t) := by simp [batchMax]

theorem bucketOf_eq_some {m_vals : List ℤ} {l : ℤ} :
    ∀ {k : ℕ}, bucketOf m_vals l = some k →
      k < m_vals.length ∧ l ≤ m_vals.getD k 0 ∧
        ∀ j < k, m_vals.getD j 0 < l := by
  induction m_vals with
  | nil => intro k h; cases h
  | cons v rest ih =>
    intro k h
    unfold bucketOf at h
    split at h
    · cases h
      exact ⟨by simp, by simpa using ‹l ≤ v›, by omega⟩
    · rcases Option.map_eq_some'.mp h with ⟨k', hk', rfl⟩
      obtain ⟨hlen, hle, hfirst⟩ := ih hk'
      refine ⟨by simpa using hlen, by simpa using hle, ?_⟩
      intro j hj
      cases j with
      | zero => simpa using lt_of_not_le ‹¬ l ≤ v›
      | succ j' => simpa using hfirst j' (by omega)

theorem bucketOf_isSome (m_vals : List ℤ) (l : ℤ) :
    (bucketOf m_vals l).isSome ↔ ∃ v ∈ m_vals, l ≤ v := by
  induction m_vals with
  | nil => simp [bucketOf]
  | cons v rest ih =>
    unfold bucketOf
    split
    · simp only [Option.isSome_some, true_iff]
      exact ⟨v, by simp, ‹l ≤ v›⟩
    · rw [Option.isSome_map', ih]
      constructor
      · rintro ⟨w, hw, hlw⟩
        exact ⟨w, List.mem_cons_of_mem v hw, hlw⟩
      · rintro ⟨w, hw, hlw⟩
        rcases List.mem_cons.mp hw with rfl | hw'
        · exact absurd hlw ‹¬ l ≤ w›
        · exact ⟨w, hw', hlw⟩

theorem length_filterMap_eq_iff {α β : Type} (f : α → Option β) (l : List α) :
    (l.filterMap f).length = l.length ↔ ∀ x ∈ l, (f x).isSome := by
  induction l with
  | nil => simp
  | cons a t ih =>
    cases hfa : f a with
    | none =>
      simp only [List.filterMap_cons, hfa, List.length_cons]
      constructor
      · intro h
        have := List.length_filterMap_le f t
        omega
      · intro h
        have := h a (by simp)
        rw [hfa] at this
        cases this
    | some b =>
      simp only [List.filterMap_cons, hfa, List.length_cons, Nat.add_right_cancel_iff]
      rw [ih]
      constructor
      · intro h x hx
        rcases List.mem_cons.mp hx with rfl | hx'
        · rw [hfa]; rfl
        · exact h x hx'
      · intro h x hx
        exact h x (List.mem_cons_of_mem a hx)

/-! ## Claim C4: discrete-regime span bounds -/

/-- C4 counterexample: the window [0, 0] satisfies 0 <= start_sec <= end_sec
with ctx_l = 5 > 0 and clip_len = 2, yet the ce transform yields (0, -1):
the end clip index is -1, so it is neither at least the start index nor
inside [0, ctx_l). -/
theorem ce_span_bounds_counterexample :
    (0 : ℕ) ≤ 0 ∧ (0 : ℕ) < 5 ∧ ceSpan 2 5 (0, 0) = (0, -1) ∧
      ¬ ((ceSpan 2 5 (0, 0)).1 ≤ (ceSpan 2 5 (0, 0)).2 ∧
        0 ≤ (ceSpan 2 5 (0, 0)).2) := by
  decide

/-- C4 (amended): the ce transform of `get_span_labels` maps a window to the
inclusive clip bounds [int(start/clip_len), min(int(end/clip_len), ctx_l) - 1];
these satisfy 0 <= start_clip_index <= end_clip_index < ctx_l under the
additional hypotheses that the window covers at least one full clip
(start_sec + clip_len <= end_sec) and starts before clip ctx_l
(int(start_sec/clip_len) < ctx_l); without them the end index can be -1 or
smaller than the start index. -/
theorem ce_span_bounds (clip_len ctx_l s e : ℕ) (hc : 0 < clip_len)
    (hse : s + clip_len ≤ e) (hs : s / clip_len < ctx_l) :
    (0 ≤ (ceSpan clip_len ctx_l (s, e)).1 ∧
      (ceSpan clip_len ctx_l (s, e)).1 ≤ (ceSpan clip_len ctx_l (s, e)).2 ∧
      (ceSpan clip_len ctx_l (s, e)).2 < ctx_l) ∧
    ∀ (shuffle : List (ℕ × ℕ) → List (ℕ × ℕ)) (mw : ℕ)
      (windows : List (ℕ × ℕ)),
      get_span_labels shuffle mw "ce" clip_len ctx_l windows =
        some (.ceSpans ((keptWindows shuffle mw windows).map
                (ceSpan clip_len ctx_l)),
              (keptWindows shuffle mw windows).map fun w =>
                (w.2 : ℤ) - (w.1 : ℤ)) := by
  constructor
  · have h1 : s / clip_len + 1 ≤ e / clip_len := by
      have h := Nat.div_le_div_right (c := clip_len) hse
      rwa [Nat.add_div_right _ hc] at h
    unfold ceSpan
    refine ⟨by positivity, ?_, ?_⟩
    · simp only
      have h2 : s / clip_len + 1 ≤ min (e / clip_len) ctx_l := le_min h1 hs
      omega
    · simp only
      have h3 : min (e / clip_len) ctx_l ≤ ctx_l := min_le_right _ _
      omega
  · intro shuffle mw windows
    unfold get_span_labels
    rw [if_neg (by decide), if_pos rfl]

/-- C4 witness at clip_len = 2, ctx_l = 50, window [10, 20]. -/
theorem ce_span_bounds_witness :
    0 ≤ (ceSpan 2 50 (10, 20)).1 ∧
      (ceSpan 2 50 (10, 20)).1 ≤ (ceSpan 2 50 (10, 20)).2 ∧
      (ceSpan 2 50 (10, 20)).2 < 50 :=
  (ce_span_bounds 2 50 10 20 (by decide) (by decide) (by decide)).1

/-! ## Claim C5: in-place mutation of the caller's window list -/

/-- C5 counterexample: reversal is a possible outcome of `random.shuffle`
(it permutes the list); with max_windows = 1 and two windows, the list the
caller holds after `get_span_labels` is no longer in its original order. -/
theorem span_labels_mutation_counterexample :
    (List.reverse [((0 : ℕ), (1 : ℕ)), (2, 3)]).Perm
        [((0 : ℕ), (1 : ℕ)), (2, 3)] ∧
      get_span_labels_windows_after List.reverse 1 [(0, 1), (2, 3)] ≠
        [(0, 1), (2, 3)] := by
  constructor
  · exact List.reverse_perm _
  · decide

/-- C5 (amended): `get_span_labels` leaves the caller's window list unchanged
only when the window count is at most max_windows; when it exceeds
max_windows, `random.shuffle` permutes the annotation record's list in place,
so a later access to the same record can see the windows in a different
order.  The list after the call is always a permutation of the original. -/
theorem span_labels_windows_after_spec
    (shuffle : List (ℕ × ℕ) → List (ℕ × ℕ))
    (hperm : ∀ l, (shuffle l).Perm l) (max_windows : ℕ)
    (windows : List (ℕ × ℕ)) :
    (windows.length ≤ max_windows →
      get_span_labels_windows_after shuffle max_windows windows = windows) ∧
    (get_span_labels_windows_after shuffle max_windows windows).Perm windows := by
  constructor
  · intro h
    unfold get_span_labels_windows_after
    rw [if_neg (by omega)]
  · unfold get_span_labels_windows_after
    split
    · exact hperm windows
    · exact List.Perm.refl windows

/-- C5 witness: one window, max_windows = 3, shuffle outcome = reversal. -/
theorem span_labels_windows_after_witness :
    get_span_labels_windows_after List.reverse 3 [((1 : ℕ), (2 : ℕ))] =
      [(1, 2)] :=
  (span_labels_windows_after_spec List.reverse
    (fun l => List.reverse_perm l) 3 [(1, 2)]).1 (by decide)

/-! ## Claim C6: collation of the dense saliency field -/

/-- C6 counterexample: for the batch of dense arrays [1] and [2, 3],
`pad_sequences_1d` produces the padded rows with their validity mask, but the
collated `saliency_all_labels` field is not that pair: the mask is
discarded. -/
theorem collate_saliency_counterexample :
    pad_sequences_1d [[1], [2, 3]] = ([[1, 0], [2, 3]], [[1, 0], [1, 1]]) ∧
      collate_saliency_all_field [[1], [2, 3]] ≠
        BatchedField.pair [[1, 0], [2, 3]] [[1, 0], [1, 1]] := by
  decide

/-- C6 (amended): `start_end_collate` computes the zero-padded rows and the
validity mask for `saliency_all_labels` but stores only the padded tensor,
discarding the mask — unlike generic sequence fields, which keep the
(padded, mask) pair.  Every padded row has the batch max length. -/
theorem collate_saliency_drops_mask (seqs : List (List ℤ)) :
    collate_saliency_all_field seqs =
        .single (pad_sequences_1d seqs).1 ∧
      collate_generic_field seqs =
        .pair (pad_sequences_1d seqs).1 (pad_sequences_1d seqs).2 ∧
      ∀ p ∈ (pad_sequences_1d seqs).1, p.length = batchMax seqs := by
  refine ⟨rfl, rfl, ?_⟩
  intro p hp
  simp only [pad_sequences_1d] at hp
  obtain ⟨s, hs, rfl⟩ := List.mem_map.mp hp
  have hle : s.length ≤ batchMax seqs := le_batchMax hs
  rw [List.length_append, List.length_replicate]
  omega

/-- C6 witness at the one-row batch [[5]]. -/
theorem collate_saliency_drops_mask_witness :
    ([(5 : ℤ)] : List ℤ).length = batchMax [[5]] :=
  (collate_saliency_drops_mask [[5]]).2.2 [5] (by decide)

/-! ## Claim C8: moment-length bucket classes -/

/-- C8: each retained span contributes the position of the first configured
threshold its raw length does not exceed; the bucket-class list has the same
length as the span-length list exactly when every length is at most some
threshold, so the assertion `len(moment_class) == len(lengths)` of line 183
fails exactly when some raw length exceeds every configured threshold. -/
theorem moment_class_assignment (m_vals lengths : List ℤ) :
    ((momentClasses m_vals lengths).length = lengths.length ↔
      ∀ l ∈ lengths, ∃ v ∈ m_vals, l ≤ v) ∧
    ∀ l k, bucketOf m_vals l = some k →
      k < m_vals.length ∧ l ≤ m_vals.getD k 0 ∧
        ∀ j < k, m_vals.getD j 0 < l := by
  constructor
  · unfold momentClasses
    rw [length_filterMap_eq_iff]
    constructor
    · intro h x hx
      exact (bucketOf_isSome m_vals x).mp (h x hx)
    · intro h x hx
      exact (bucketOf_isSome m_vals x).mpr (h x hx)
  · intro l k hk
    exact bucketOf_eq_some hk

/-- C8 witness: thresholds [10, 20], length 3 falls in bucket 0. -/
theorem moment_class_assignment_witness :
    0 < ([(10 : ℤ), 20] : List ℤ).length ∧
      (3 : ℤ) ≤ ([(10 : ℤ), 20] : List ℤ).getD 0 0 :=
  ⟨((moment_class_assignment [10, 20] []).2 3 0 (by decide)).1,
   ((moment_class_assignment [10, 20] []).2 3 0 (by decide)).2.1⟩

/-! ## Claim C9: constructor guard on validation/test splits -/

/-- C9: when the data path contains "val" or "test", a positive text
drop ratio makes the `__init__` assertion of lines 59-60 fire (construction
fails before any example is built); a zero ratio passes the guard. -/
theorem init_split_guard (dp : List Char) (r : ℚ) (qt : String)
    (hq : qt ∈ Q_FEAT_TYPES) :
    ((List.IsInfix "val".toList dp ∨ List.IsInfix "test".toList dp) →
      0 < r → initChecksPass dp r qt = false) ∧
    (r = 0 → initChecksPass dp r qt = true) := by
  constructor
  · intro hin hr
    have hr0 : r ≠ 0 := ne_of_gt hr
    unfold initChecksPass
    have ha : (decide (List.IsInfix "val".toList dp) ||
        decide (List.IsInfix "test".toList dp)) = true := by
      simp only [Bool.or_eq_true, decide_eq_true_eq]
      exact hin
    have hc : decide (r = 0) = false := by simp [hr0]
    rw [ha, hc]
    simp
  · intro h0
    unfold initChecksPass
    simp [h0, hq]

/-- C9 witness: data path "data/val.jsonl" with ratio 1/2 fails the guard. -/
theorem init_split_guard_witness :
    initChecksPass "data/val.jsonl".toList (1 / 2) "last_hidden_state" =
      false :=
  (init_split_guard "data/val.jsonl".toList (1 / 2) "last_hidden_state"
    (by decide)).1 (Or.inl (by decide)) (by norm_num)

/-! ## Claim C3: degenerate sampling pools -/

/-- C3 counterexample: for gt_window = [0, 4], clip_len = 2, ctx_l = 2 and the
default max_n = 2, the complement of [gt_st, gt_ed] in [0, ctx_l) is empty, and
`get_saliency_labels_sub_as_query` raises a ValueError from `random.sample`
(modelled as `none`) instead of falling back to duplicating indices — for any
sampling outcome. -/
theorem sub_as_query_no_fallback_counterexample :
    (negPoolSubAsQuery 2 0 4 2).length < 2 ∧
      get_saliency_labels_sub_as_query takeSample 2 0 4 2 2 = none := by
  decide

/-- C3 (amended): `get_saliency_labels_all` does silently fall back to
duplicating the hard positive/negative indices when the easy-negative pool has
fewer than max_n members, never raising in that branch; but
`get_saliency_labels_sub_as_query` has no such fallback: whenever the
complement of [gt_st, gt_ed] in [0, ctx_l) has fewer than max_n elements it
raises (returns none). -/
theorem saliency_fallback_behavior (sample : List ℕ → ℕ → List ℕ)
    (rel : List ℕ) (scores : List (List ℤ)) (ctx_l max_n : ℕ)
    (hpool : (easyNegPool rel ctx_l).length < max_n) :
    get_saliency_labels_all sample rel scores ctx_l max_n true =
      (buildScoreArray rel (aggScores scores) ctx_l).map (fun arr =>
        (hardPosAll rel scores ctx_l max_n ++ hardPosAll rel scores ctx_l max_n,
         hardNegAll rel scores ctx_l max_n ++ hardNegAll rel scores ctx_l max_n,
         arr)) ∧
    ∀ clip_len gt0 gt1,
      (negPoolSubAsQuery clip_len gt0 gt1 ctx_l).length < max_n →
      get_saliency_labels_sub_as_query sample clip_len gt0 gt1 ctx_l max_n =
        none := by
  constructor
  · unfold get_saliency_labels_all
    rw [if_pos rfl, if_neg (by omega)]
    cases h : buildScoreArray rel (aggScores scores) ctx_l <;> simp [h]
  · intro clip_len gt0 gt1 hneg
    unfold get_saliency_labels_sub_as_query
    have hnone : pySample sample (negPoolSubAsQuery clip_len gt0 gt1 ctx_l)
        max_n = none := by
      unfold pySample
      rw [if_neg (by omega)]
    cases hpos : (if gtStClamped clip_len gt0 gt1 ctx_l ≠
        gtEd clip_len gt1 ctx_l then
          pySample sample (posPoolSubAsQuery clip_len gt0 gt1 ctx_l) max_n
        else
          some [gtStClamped clip_len gt0 gt1 ctx_l,
                gtStClamped clip_len gt0 gt1 ctx_l]) <;>
      simp [hnone]

/-- C3 witness: rel_clip_ids = [0], ctx_l = 1, max_n = 2 leaves an empty
easy-negative pool, and the fallback duplicates the hard indices. -/
theorem saliency_fallback_behavior_witness :
    get_saliency_labels_all takeSample [0] [[1, 1, 1]] 1 2 true =
      (buildScoreArray [0] (aggScores [[1, 1, 1]]) 1).map (fun arr =>
        (hardPosAll [0] [[1, 1, 1]] 1 2 ++ hardPosAll [0] [[1, 1, 1]] 1 2,
         hardNegAll [0] [[1, 1, 1]] 1 2 ++ hardNegAll [0] [[1, 1, 1]] 1 2,
         arr)) :=
  (saliency_fallback_behavior takeSample [0] [[1, 1, 1]] 1 2 (by decide)).1

/-! ## Claim C2: dense score array length -/

/-- C2 counterexample: with ctx_l = 3 and the annotated clip id 3 >= ctx_l,
the dynamic resize yields a returned dense score array of length 4, not
ctx_l = 3. -/
theorem score_array_length_counterexample :
    get_saliency_labels_all takeSample [3] [[2, 1, 1]] 3 1 true =
      some ([2, 3], [2, 0], [0, 0, 0, 4]) ∧
      ¬ (([(0 : ℤ), 0, 0, 4] : List ℤ).length = 3) := by
  decide

/-- C2 (amended): the dense score array returned by
`get_saliency_labels_all` has length exactly ctx_l whenever every annotated
clip id is < ctx_l; when some id >= ctx_l triggers the dynamic resize, the
returned array is longer than ctx_l (length ctx_l + 1), as the counterexample
shows. -/
theorem score_array_length (sample : List ℕ → ℕ → List ℕ) (rel : List ℕ)
    (scores : List (List ℤ)) (ctx_l max_n : ℕ) (aen : Bool)
    (hrel : ∀ id ∈ rel, id < ctx_l) (pos neg : List ℕ) (arr : List ℤ)
    (h : get_saliency_labels_all sample rel scores ctx_l max_n aen =
      some (pos, neg, arr)) :
    arr.length = ctx_l := by
  unfold get_saliency_labels_all at h
  rw [Option.bind_eq_some] at h
  obtain ⟨sa, hsa, h⟩ := h
  rw [Option.bind_eq_some] at h
  obtain ⟨pair, _, h⟩ := h
  simp only [Option.some.injEq, Prod.mk.injEq] at h
  obtain ⟨-, -, rfl⟩ := h
  exact buildScoreArray_length hrel hsa

/-- C2 witness: rel_clip_ids = [0], ctx_l = 1. -/
theorem score_array_length_witness : ([(3 : ℤ)] : List ℤ).length = 1 :=
  score_array_length takeSample [0] [[1, 1, 1]] 1 1 false (by decide)
    [0] [0] [3] (by decide)

/-! ## Claim C7: span and raw-length counts -/

/-- C7: `get_span_labels` keeps exactly max_windows windows when more are
given and all of them otherwise, in both regimes; the raw-length list is
parallel to the kept windows (same count, same order, entry = end - start). -/
theorem get_span_labels_counts (shuffle : List (ℕ × ℕ) → List (ℕ × ℕ))
    (hlen : ∀ l, (shuffle l).length = l.length) (slt : String)
    (clip_len ctx_l mw : ℕ) (windows : List (ℕ × ℕ)) (out : SpanOut)
    (lengths : List ℤ)
    (h : get_span_labels shuffle mw slt clip_len ctx_l windows =
      some (out, lengths)) :
    spanCount out = (if mw < windows.length then mw else windows.length) ∧
    lengths.length = spanCount out ∧
    lengths = (keptWindows shuffle mw windows).map fun w =>
      (w.2 : ℤ) - (w.1 : ℤ) := by
  have hkept : (keptWindows shuffle mw windows).length =
      if mw < windows.length then mw else windows.length := by
    unfold keptWindows
    split
    · rw [List.length_take, hlen]
      omega
    · rfl
  unfold get_span_labels at h
  split at h
  · simp only [Option.some.injEq, Prod.mk.injEq] at h
    obtain ⟨rfl, rfl⟩ := h
    refine ⟨?_, ?_, rfl⟩
    · simpa [spanCount] using hkept
    · simp [spanCount]
  · split at h
    · simp only [Option.some.injEq, Prod.mk.injEq] at h
      obtain ⟨rfl, rfl⟩ := h
      refine ⟨?_, ?_, rfl⟩
      · simpa [spanCount] using hkept
      · simp [spanCount]
    · cases h

/-- C7 witness: the single window [26, 36] in the ce regime with
max_windows = 5. -/
theorem get_span_labels_counts_witness :
    spanCount (SpanOut.ceSpans [((13 : ℤ), (17 : ℤ))]) =
      (if 5 < [((26 : ℕ), (36 : ℕ))].length then 5
        else [((26 : ℕ), (36 : ℕ))].length) :=
  (get_span_labels_counts id (fun _ => rfl) "ce" 2 75 5 [(26, 36)]
    (.ceSpans [(13, 17)]) [10] (by decide)).1

/-! ## Claim C1: produced indices lie in [0, ctx_l) -/

/-- C1 counterexample: ctx_l = 2, rel_clip_ids = [2].  The easy positive is
sampled from rel_clip_ids without clamping (line 279), so the returned
positive list contains the index 2, which is not in [0, 2). -/
theorem saliency_index_range_counterexample :
    get_saliency_labels_all takeSample [2] [[1, 1, 1]] 2 1 true =
      some ([1, 2], [1, 0], [0, 0, 3]) ∧
      2 ∈ ([1, 2] : List ℕ) ∧ ¬ (2 < 2) := by
  decide

/-- C1 (amended): for ctx_l > 0 every index returned by
`get_saliency_labels_sub_as_query` and `get_saliency_labels_all_tvsum` lies in
[0, ctx_l), and so do the hard indices of `get_saliency_labels_all`; the easy
positives of `get_saliency_labels_all` are sampled from rel_clip_ids without
clamping, so all of its indices are guaranteed in [0, ctx_l) only under the
additional hypothesis that every rel_clip_id is < ctx_l. -/
theorem saliency_indices_in_range (sample : List ℕ → ℕ → List ℕ)
    (hs : SampleSpec sample) (ctx_l : ℕ) (hctx : 0 < ctx_l) :
    (∀ clip_len gt0 gt1 max_n pos neg arr,
        get_saliency_labels_sub_as_query sample clip_len gt0 gt1 ctx_l max_n =
          some (pos, neg, arr) → ∀ i, (i ∈ pos ∨ i ∈ neg) → i < ctx_l) ∧
    (∀ rel scores max_n aen pos neg arr, (∀ id ∈ rel, id < ctx_l) →
        get_saliency_labels_all sample rel scores ctx_l max_n aen =
          some (pos, neg, arr) → ∀ i, (i ∈ pos ∨ i ∈ neg) → i < ctx_l) ∧
    (∀ labels max_n aen pos neg arr,
        get_saliency_labels_all_tvsum labels ctx_l max_n aen =
          some (pos, neg, arr) → ∀ i, (i ∈ pos ∨ i ∈ neg) → i < ctx_l) := by
  refine ⟨?_, ?_, ?_⟩
  · intro clip_len gt0 gt1 max_n pos neg arr h i hi
    unfold get_saliency_labels_sub_as_query at h
    rw [Option.bind_eq_some] at h
    obtain ⟨pos', hpos, h⟩ := h
    rw [Option.bind_eq_some] at h
    obtain ⟨neg', hneg, h⟩ := h
    simp only [Option.some.injEq, Prod.mk.injEq] at h
    obtain ⟨rfl, rfl, -⟩ := h
    rcases hi with hi | hi
    · split at hpos
      · exact mem_posPoolSubAsQuery_lt hctx
          ((pySample_eq_some hs hpos).2.1 i hi)
      · simp only [Option.some.injEq] at hpos
        subst hpos
        have h1 := gtStClamped_le_gtEd clip_len gt0 gt1 ctx_l
        have h2 := gtEd_le clip_len gt1 ctx_l
        rcases List.mem_cons.mp hi with rfl | hi'
        · omega
        · rcases List.mem_cons.mp hi' with rfl | hi''
          · omega
          · cases hi''
    · exact mem_negPoolSubAsQuery_lt hctx
        ((pySample_eq_some hs hneg).2.1 i hi)
  · intro rel scores max_n aen pos neg arr hrel h i hi
    unfold get_saliency_labels_all at h
    rw [Option.bind_eq_some] at h
    obtain ⟨sa, hsa, h⟩ := h
    rw [Option.bind_eq_some] at h
    obtain ⟨pair, hpair, h⟩ := h
    simp only [Option.some.injEq, Prod.mk.injEq] at h
    obtain ⟨rfl, rfl, -⟩ := h
    have hhard : ∀ j, (j ∈ hardPosAll rel scores ctx_l max_n ∨
        j ∈ hardNegAll rel scores ctx_l max_n) → j < ctx_l := by
      rintro j (hj | hj)
      · exact mem_hardPosAll_lt hctx hj
      · exact mem_hardNegAll_lt hctx hj
    have hpairmem : ∀ j, (j ∈ pair.1 ∨ j ∈ pair.2) → j < ctx_l := by
      rintro j hj
      split at hpair
      · split at hpair
        · rw [Option.bind_eq_some] at hpair
          obtain ⟨ep, hep, hpair⟩ := hpair
          rw [Option.bind_eq_some] at hpair
          obtain ⟨en, hen, hpair⟩ := hpair
          simp only [Option.some.injEq] at hpair
          subst hpair
          rcases hj with hj | hj
          · exact hrel j ((pySample_eq_some hs hep).2.1 j hj)
          · exact mem_easyNegPool_lt ((pySample_eq_some hs hen).2.1 j hj)
        · simp only [Option.some.injEq] at hpair
          subst hpair
          exact hhard j hj
      · simp only [Option.some.injEq] at hpair
        subst hpair
        rcases hj with hj | hj <;> cases hj
    rcases hi with hi | hi
    · rcases List.mem_append.mp hi with hi | hi
      · exact hhard i (Or.inl hi)
      · exact hpairmem i (Or.inl hi)
    · rcases List.mem_append.mp hi with hi | hi
      · exact hhard i (Or.inr hi)
      · exact hpairmem i (Or.inr hi)
  · intro labels max_n aen pos neg arr h i hi
    unfold get_saliency_labels_all_tvsum at h
    rw [Option.bind_eq_some] at h
    obtain ⟨pair, hpair, h⟩ := h
    simp only [Option.some.injEq, Prod.mk.injEq] at h
    obtain ⟨rfl, rfl, -⟩ := h
    have hmap : ∀ (l : List ℕ) j, j ∈ l.map (clampIdx ctx_l) → j < ctx_l := by
      intro l j hj
      obtain ⟨x, -, rfl⟩ := List.mem_map.mp hj
      exact clampIdx_lt hctx
    have hpairmem : ∀ j, (j ∈ pair.1 ∨ j ∈ pair.2) → j < ctx_l := by
      rintro j hj
      split at hpair
      · split at hpair
        · cases hpair
        · simp only [Option.some.injEq] at hpair
          subst hpair
          rcases hj with hj | hj <;> exact hmap _ j hj
      · simp only [Option.some.injEq] at hpair
        subst hpair
        rcases hj with hj | hj <;> cases hj
    rcases hi with hi | hi <;> rcases List.mem_append.mp hi with hi | hi
    · exact hmap _ i hi
    · exact hpairmem i (Or.inl hi)
    · exact hmap _ i hi
    · exact hpairmem i (Or.inr hi)

/-- C1 witness: ctx_l = 4, gt_window = [2, 4], clip_len = 2: the positive
index 1 is inside [0, 4). -/
theorem saliency_indices_in_range_witness : (1 : ℕ) < 4 :=
  (saliency_indices_in_range takeSample takeSample_spec 4 (by decide)).1
    2 2 4 2 [1, 1] [0, 2] [0, 1, 0, 0] (by decide) 1 (Or.inl (by decide))

/-! ## Claim C10: the worked subset-query example -/

/-- C10: for gt_window = [10, 20], clip_len = 2, ctx_l = 50, the subset-query
builder computes gt_st = 5 and gt_ed = 9; for every possible sampling outcome
the positive indices are 2 distinct values in {5..9}, the negatives avoid that
range, and the dense score array has length 50 with value 1 exactly at
positions 5 through 9. -/
theorem sub_as_query_example (sample : List ℕ → ℕ → List ℕ)
    (hs : SampleSpec sample) :
    gtStClamped 2 10 20 50 = 5 ∧ gtEd 2 20 50 = 9 ∧
    ∃ pos neg,
      get_saliency_labels_sub_as_query sample 2 10 20 50 2 =
        some (pos, neg, subAsQueryScore 2 10 20 50) ∧
      pos.length = 2 ∧ pos.Nodup ∧ (∀ i ∈ pos, 5 ≤ i ∧ i ≤ 9) ∧
      neg.length = 2 ∧ (∀ i ∈ neg, i < 50 ∧ ¬ (5 ≤ i ∧ i ≤ 9)) ∧
      (subAsQueryScore 2 10 20 50).length = 50 ∧
      ∀ j, j < 50 → (subAsQueryScore 2 10 20 50).getD j 0 =
        if 5 ≤ j ∧ j ≤ 9 then (1 : ℤ) else 0 := by
  have hps := hs (posPoolSubAsQuery 2 10 20 50) 2 (by decide)
  have hns := hs (negPoolSubAsQuery 2 10 20 50) 2 (by decide)
  refine ⟨by decide, by decide, sample (posPoolSubAsQuery 2 10 20 50) 2,
    sample (negPoolSubAsQuery 2 10 20 50) 2, ?_, hps.1, hps.2.2 (by decide),
    ?_, hns.1, ?_, by decide, by decide⟩
  · unfold get_saliency_labels_sub_as_query pySample
    rw [if_pos (by decide : gtStClamped 2 10 20 50 ≠ gtEd 2 20 50),
      if_pos (by decide : 2 ≤ (posPoolSubAsQuery 2 10 20 50).length),
      if_pos (by decide : 2 ≤ (negPoolSubAsQuery 2 10 20 50).length)]
    rfl
  · intro i hi
    have hmem := hps.2.1 i hi
    rw [show posPoolSubAsQuery 2 10 20 50 = List.range' 5 5 from by decide]
      at hmem
    have := List.mem_range'_1.mp hmem
    exact ⟨by omega, by omega⟩
  · intro i hi
    have hmem := hns.2.1 i hi
    rw [show negPoolSubAsQuery 2 10 20 50 =
        List.range' 0 5 ++ List.range' 10 40 from by decide] at hmem
    rcases List.mem_append.mp hmem with hm | hm <;>
      · have := List.mem_range'_1.mp hm
        refine ⟨by omega, by omega⟩

/-- C10 witness: the derived pseudo ground-truth clip range. -/
theorem sub_as_query_example_witness :
    gtStClamped 2 10 20 50 = 5 ∧ gtEd 2 20 50 = 9 :=
  ⟨(sub_as_query_example takeSample takeSample_spec).1,
   (sub_as_query_example takeSample takeSample_spec).2.1⟩

end QDDETR
